import Mathlib

/-!
Verification of exabgp's reactor command layer and family-declaration
validator against its natural-language specification.

The code under verification:
  * `src/lib/exabgp/configuration/bgp/family.py` — `SectionFamily._add` and
    `SectionFamily.all` (family/AFI-SAFI validation);
  * `src/src/exabgp/reactor/api/command/neighbor.py` — the `Neighbor`
    presentation class (`as_dict`, `extensive`, `summary`), the `teardown`
    handler and the `show neighbor` dispatch with its callbacks.

Python strings, dicts (insertion ordered) and lists are embedded as Lean
`String` and association `List`s; Python exceptions become explicit error
results; handler side effects (teardown scheduling, log lines, answer
markers) become explicit output records.

Collaborators that live outside the provided sources (`AFI.implemented_safi`,
`extract_neighbors`, `match_neighbor`, the reactor's peer queries) are either
modelled from the spec (marked `Modelled from the spec:`) or taken as
parameters of the embedded functions.
-/

set_option autoImplicit false

namespace Exabgp

/-! ### Python string primitives -/

/-- Python truthiness of a nullable integer: `None` and `0` are falsy. -/
def pyTruthy : Option Nat → Bool
  | none => false
  | some n => n != 0

/-- Python `str.lower()` (ASCII case folding suffices for FSM state names). -/
def pyLower (s : String) : String :=
  String.mk (s.toList.map Char.toLower)

/-- Left-justify in a field of `w` columns, as Python `%-Ns` (no truncation). -/
def ljust (s : String) (w : Nat) : String :=
  s ++ String.mk (List.replicate (w - s.length) ' ')

/-- Right-justify in a field of `w` columns, as Python `%Ns` / `%Nd`. -/
def rjust (s : String) (w : Nat) : String :=
  String.mk (List.replicate (w - s.length) ' ') ++ s

/-- Two-digit zero padding, as in `str(timedelta)` minute/second fields. -/
def pad2 (n : Nat) : String :=
  if n < 10 then "0" ++ toString n else toString n

/-- Python `str(datetime.timedelta(seconds=n))` for a non-negative whole
number of seconds: `H:MM:SS`, prefixed by `D day, ` / `D days, ` when a day
or more. -/
def timedeltaStr (secs : Nat) : String :=
  let d := secs / 86400
  let rem := secs % 86400
  let hms := toString (rem / 3600) ++ ":" ++ pad2 ((rem % 3600) / 60) ++ ":" ++ pad2 (rem % 60)
  if d == 0 then hms
  else toString d ++ (if d == 1 then " day, " else " days, ") ++ hms

/-- Python `str.isdigit` restricted to ASCII input: non-empty and all
decimal digits. -/
def pyIsdigit (s : String) : Bool :=
  s != "" && s.toList.all Char.isDigit

/-- Python `int(...)` on a string of decimal digits. -/
def pyInt (s : String) : Nat :=
  s.toList.foldl (fun a c => 10 * a + (c.toNat - 48)) 0

/-- Python `s.split(' ', 1)`: the part before the first space and the part
after it (the whole string and `""` when there is no space). -/
def pySplit1 (s : String) : String × String :=
  let l := s.toList
  (String.mk (l.takeWhile (fun c => c != ' ')),
   String.mk ((l.dropWhile (fun c => c != ' ')).drop 1))

/-- Whether one character list starts with another (helper for `pyIn`). -/
def beginsWith : List Char → List Char → Bool
  | [], _ => true
  | _ :: _, [] => false
  | a :: as, b :: bs => a == b && beginsWith as bs

/-- Substring occurrence over character lists (helper for `pyIn`). -/
def subOf (n : List Char) : List Char → Bool
  | [] => beginsWith n []
  | b :: bs => beginsWith n (b :: bs) || subOf n bs

/-- Python `needle in haystack` on strings: substring containment. -/
def pyIn (needle haystack : String) : Bool :=
  subOf needle.toList haystack.toList

/-- Python `c in s` for a single character. -/
def pyInChar (c : Char) (s : String) : Bool :=
  s.toList.contains c

/-! ### family.py — `SectionFamily`

The family declaration being built (`self.content`) is a dict
`AFI → list of SAFI`; AFI and SAFI objects round-trip through their token
names (`AFI(AFI.value(name))`), so both are embedded as the name strings. -/

/-- A family declaration under construction: insertion-ordered map from AFI
name to the list of SAFI names recorded so far. -/
abbrev Content := List (String × List String)

/-- Modelled from the spec: `AFI.implemented_safi` (from
`exabgp.protocol.family`, not under `src/`) — the implemented-SAFI name
lists given by the spec's family grammar for `ipv4`, `ipv6` and `l2vpn`. -/
def implemented_safi : String → List String
  | "ipv4" => ["unicast", "multicast", "nlri-mpls", "mpls-vpn", "flow", "flow-vpn"]
  | "ipv6" => ["unicast", "flow", "flow-vpn"]
  | "l2vpn" => ["vpls"]
  | _ => []

/-- The two failure messages `SectionFamily._add` can raise (both as
`RaisedFamily`): the spec's `UnimplementedFamilyError` ("the family pair
afi/safi %s/%s is unimplemented") and `DuplicateFamilyError` ("afi/safi pair
already defined in this family"). -/
inductive FamilyErr where
  | unimplemented (afi safi : String)
  | duplicate (afi safi : String)
  deriving DecidableEq, Repr

/-- Python `dict.setdefault(afi, [])`: insert an empty entry at the end when
the key is absent. -/
def setdefault (content : Content) (afi : String) : Content :=
  if content.any (fun e => e.1 == afi) then content else content ++ [(afi, [])]

/-- The SAFI list recorded for an AFI (empty when the key is absent). -/
def entryOf (content : Content) (afi : String) : List String :=
  (content.lookup afi).getD []

/-- Replace the first entry with the given key (models mutating the list
object obtained from the dict). -/
def updateEntry : Content → String → List String → Content
  | [], _, _ => []
  | (a, ss) :: rest, afi, v =>
    if a == afi then (a, v) :: rest else (a, ss) :: updateEntry rest afi v

/-- The `for safi_name in safi_names` loop body of `SectionFamily._add`:
check implementedness, then duplication, then append; the first failure
stops the loop, keeping the content mutated so far. -/
def addGo (afi : String) : Content → List String → Option FamilyErr × Content
  | c, [] => (none, c)
  | c, s :: rest =>
    if !((implemented_safi afi).contains s) then (some (.unimplemented afi s), c)
    else if (entryOf c afi).contains s then (some (.duplicate afi s), c)
    else addGo afi (updateEntry c afi (entryOf c afi ++ [s])) rest

/-- `SectionFamily._add(tokeniser, afi_name, safi_names)` on the declaration
`content`. `self._check_duplicate` (engine code not under `src/`) is given
no failure behaviour by the spec and is modelled as a no-op. Returns the
error raised (if any) together with the content as left by the call. -/
def _add (content : Content) (afi : String) (safis : List String) :
    Option FamilyErr × Content :=
  addGo afi (setdefault content afi) safis

/-- Python iteration over a string yields its characters as one-character
strings. -/
def stringChars (s : String) : List String :=
  s.toList.map (fun ch => String.mk [ch])

/-- The (afi, safi-name) pairs enumerated by `SectionFamily.all`. -/
def allPairs : List (String × String) :=
  ["ipv4", "ipv6", "l2vpn"].flatMap fun a => (implemented_safi a).map fun s => (a, s)

/-- The nested loop of `SectionFamily.all`: each call is
`self._add(tokeniser, afi_name, safi_name)` with `safi_name` a single
string, which `_add` then iterates character by character; the first raised
error propagates. -/
def allGo : Content → List (String × String) → Option FamilyErr × Content
  | c, [] => (none, c)
  | c, (afi, safi) :: rest =>
    match _add c afi (stringChars safi) with
    | (some e, c2) => (some e, c2)
    | (none, c2) => allGo c2 rest

/-- `SectionFamily.all(tokeniser)` acting on the declaration `content`. -/
def allAction (content : Content) : Option FamilyErr × Content :=
  allGo content allPairs

/-- The (afi, safi) pairs recorded in a declaration. -/
def pairsOf (content : Content) : List (String × String) :=
  content.flatMap fun e => e.2.map fun s => (e.1, s)

/-! ### family.py — supporting lemmas -/

theorem pairsOf_setdefault (c : Content) (afi : String) :
    pairsOf (setdefault c afi) = pairsOf c := by
  unfold setdefault
  split
  · rfl
  · simp [pairsOf]

theorem lookup_of_no_key (c : Content) (afi : String)
    (h : c.any (fun e => e.1 == afi) = false) : c.lookup afi = none := by
  induction c with
  | nil => rfl
  | cons e rest ih =>
    simp only [List.any_cons, Bool.or_eq_false_iff] at h
    simp only [List.lookup]
    rw [show (afi == e.1) = false from by
      cases he : (e.1 == afi) with
      | true => exact absurd he (by simp [h.1])
      | false => simp_all [BEq.comm]]
    exact ih h.2

theorem entryOf_setdefault (c : Content) (afi : String) :
    entryOf (setdefault c afi) afi = entryOf c afi := by
  unfold setdefault
  split
  · rfl
  · rename_i h
    rw [Bool.not_eq_true] at h
    unfold entryOf
    rw [lookup_of_no_key c afi h]
    induction c with
    | nil => simp [List.lookup]
    | cons e rest ih =>
      simp only [List.any_cons, Bool.or_eq_false_iff] at h
      simp only [List.cons_append, List.lookup]
      rw [show (afi == e.1) = false from by
        cases he : (e.1 == afi) with
        | true => exact absurd he (by simp [h.1])
        | false => simp_all [BEq.comm]]
      simpa using ih h.2

/-! ### Claims C3 and C4 -/

/-- C3: the claim states that `all()` records exactly the implemented-SAFI
set for each of `ipv4`, `ipv6`, `l2vpn` and never raises on an empty
declaration. Evaluating the embedded code refutes this: `all()` passes each
SAFI *name string* where `_add` expects a list of names, so `_add` iterates
the string character by character and the very first pair already raises
the unimplemented-family error for `ipv4`/`u`, leaving only an empty `ipv4`
entry behind. -/
theorem allAction_raises_on_empty :
    allAction [] = (some (FamilyErr.unimplemented "ipv4" "u"), [("ipv4", [])]) := by
  decide

/-- C4 counterexample: adding `ipv4 [unicast bogus]` to an empty declaration
raises the unimplemented-family error for `bogus`, yet the declaration is
not left as it was before the call — the pair (ipv4, unicast) accepted
earlier in the same call stays recorded. -/
theorem add_failure_mutates :
    _add [] "ipv4" ["unicast", "bogus"] =
      (some (FamilyErr.unimplemented "ipv4" "bogus"), [("ipv4", ["unicast"])])
    ∧ pairsOf [("ipv4", ["unicast"])] = [("ipv4", "unicast")]
    ∧ ([("ipv4", ["unicast"])] : Content) ≠ ([] : Content) := by
  decide

/-- C4 (amended): adding a single (afi, safi) pair that is unimplemented
raises the unimplemented-family error, adding one already present raises
the duplicate-family error (implementedness is checked first), and for such
a single-pair failing call the recorded (afi, safi) pairs are unchanged —
though the AFI key itself may have been created empty by `setdefault`, and
pairs accepted earlier in a multi-token call persist (see
`add_failure_mutates`). -/
theorem add_rejected_pair_not_recorded (c : Content) (afi s : String)
    (h : s ∉ implemented_safi afi ∨ s ∈ entryOf c afi) :
    (_add c afi [s]).1 =
      (if (implemented_safi afi).contains s
       then some (FamilyErr.duplicate afi s)
       else some (FamilyErr.unimplemented afi s))
    ∧ pairsOf (_add c afi [s]).2 = pairsOf c := by
  unfold _add addGo
  cases him : (implemented_safi afi).contains s with
  | false =>
    simp only [him, Bool.not_false, if_true]
    exact ⟨rfl, pairsOf_setdefault c afi⟩
  | true =>
    have hs : s ∈ entryOf c afi := by
      cases h with
      | inl h1 => exact absurd (by simpa using him) h1
      | inr h2 => exact h2
    have hc : (entryOf (setdefault c afi) afi).contains s = true := by
      rw [entryOf_setdefault]
      simpa using hs
    simp only [him, Bool.not_true, if_false, hc, if_true]
    exact ⟨rfl, pairsOf_setdefault c afi⟩

/-- Witness for `add_rejected_pair_not_recorded` at a concrete declaration
already holding (ipv4, unicast): re-adding it raises the duplicate error
and records nothing new. -/
theorem add_rejected_pair_not_recorded_witness :
    ("unicast" ∉ implemented_safi "ipv4"
      ∨ "unicast" ∈ entryOf [("ipv4", ["unicast"])] "ipv4")
    ∧ ((_add [("ipv4", ["unicast"])] "ipv4" ["unicast"]).1 =
        some (FamilyErr.duplicate "ipv4" "unicast")
      ∧ pairsOf (_add [("ipv4", ["unicast"])] "ipv4" ["unicast"]).2 =
        pairsOf [("ipv4", ["unicast"])]) :=
  ⟨Or.inr (by decide),
   add_rejected_pair_not_recorded [("ipv4", ["unicast"])] "ipv4" "unicast"
     (Or.inr (by decide))⟩

/-! ### neighbor.py — session snapshots and the `Neighbor` presentation class

`reactor.neighbor_cli_data` (not under `src/`) yields the snapshot dict the
presentation functions consume. Modelled from the spec: `SessionSnapshot` is
an immutable record with nullable `duration`/`down` counters, boolean
capability and family flags, and per-message-type sent/received counters;
dicts keep insertion order and are embedded as association lists. -/

/-- One family's per-peer tuple, in the snapshot's stored component order:
`(local_announced, peer_announced, addpath_send, addpath_receive)`. -/
abbrev FamEntry := (String × String) × (Bool × Bool × Bool × Bool)

/-- The snapshot dict (`answer` in the source) consumed by `Neighbor`. -/
structure Answer where
  duration : Option Nat
  down : Option Nat
  state : String
  localAddress : String
  localAs : Nat
  localId : String
  localHold : Nat
  peerAddress : String
  peerAs : Option Nat
  peerId : Option String
  peerHold : Option Nat
  capabilities : List (String × (Bool × Bool))
  families : List FamEntry
  messages : List (String × (Nat × Nat))

/-- `_en`: render a nullable boolean as `enabled`/`disabled`/`n/a`. -/
def _en : Option Bool → String
  | none => "n/a"
  | some true => "enabled"
  | some false => "disabled"

/-- `_pr`: render a nullable value, `n/a` when `None`. -/
def _pr : Option Nat → String
  | none => "n/a"
  | some v => toString v

/-- `_addpath`: the add-path mode string from the send/receive flags. -/
def _addpath (send receive : Bool) : String :=
  if send && receive then "send/receive"
  else if send then "send"
  else if receive then "receive"
  else "disabled"

/-- `Neighbor.extensive_kv = '   %-20s %15s %15s %15s'`. -/
def extensive_kv (k v1 v2 v3 : String) : String :=
  "   " ++ ljust k 20 ++ " " ++ rjust v1 15 ++ " " ++ rjust v2 15 ++ " " ++ rjust v3 15

/-- The lines of the `families` section of `Neighbor.extensive` (the
generator joined with newlines at source lines 151–154). Note the source
destructures each tuple as `(l, r, apr, aps)` — binding the third component
to `apr` and the fourth to `aps` — and then renders `_addpath(aps, apr)`. -/
def extensiveFamiliesLines (fams : List FamEntry) : List String :=
  fams.map fun e =>
    let a := e.1.1
    let s := e.1.2
    let l := e.2.1
    let r := e.2.2.1
    let apr := e.2.2.2.1
    let aps := e.2.2.2.2
    extensive_kv (a ++ " " ++ s ++ ":") (_en (some l)) (_en (some r)) (_addpath aps apr)

/-- The json object built by `Neighbor.as_dict`, with the nested dicts
flattened into fields (`localFamilies` is `formated['local']['families']`,
and so on). -/
structure Formated where
  state : String
  duration : Option Nat
  fsm : String
  localCapabilities : List (String × Bool)
  localFamilies : List (String × Bool)
  localAddPath : List (String × Bool)
  peerCapabilities : List (String × Bool)
  peerFamilies : List (String × Bool)
  peerAddPath : List (String × Bool)
  messagesSent : List (String × Nat)
  messagesReceived : List (String × Nat)
  capabilities : List String
  families : List String
  addPath : List (String × String)
  localAddress : String
  localAs : Nat
  localId : String
  localHold : Nat
  peerAddress : String
  peerAs : Option Nat
  peerId : Option String
  peerHold : Option Nat

/-- The `for (a, s), (l, p, aps, apr) in answer['families'].items()` loop of
`as_dict`: fills the per-side family/add-path maps, appends to the
top-level `families` list when both sides are enabled, and records the
add-path mode string `_addpath(aps, apr)`. -/
def famFold (acc : Formated) : List FamEntry → Formated
  | [] => acc
  | ((a, s), (l, p, aps, apr)) :: rest =>
    let k := a ++ " " ++ s
    famFold
      { acc with
        localFamilies := acc.localFamilies ++ [(k, l)]
        peerFamilies := acc.peerFamilies ++ [(k, p)]
        localAddPath := acc.localAddPath ++ [(k, aps)]
        peerAddPath := acc.peerAddPath ++ [(k, apr)]
        families := if l && p then acc.families ++ [k] else acc.families
        addPath := acc.addPath ++ [(k, _addpath aps apr)] }
      rest

/-- The `for k, (l, p) in answer['capabilities'].items()` loop of
`as_dict`. -/
def capFold (acc : Formated) : List (String × (Bool × Bool)) → Formated
  | [] => acc
  | (k, (l, p)) :: rest =>
    capFold
      { acc with
        localCapabilities := acc.localCapabilities ++ [(k, l)]
        peerCapabilities := acc.peerCapabilities ++ [(k, p)]
        capabilities := if l && p then acc.capabilities ++ [k] else acc.capabilities }
      rest

/-- The `for k, (s, r) in answer['messages'].items()` loop of `as_dict`. -/
def msgFold (acc : Formated) : List (String × (Nat × Nat)) → Formated
  | [] => acc
  | (k, (s, r)) :: rest =>
    msgFold
      { acc with
        messagesSent := acc.messagesSent ++ [(k, s)]
        messagesReceived := acc.messagesReceived ++ [(k, r)] }
      rest

/-- `Neighbor.as_dict(answer)`: `up = answer['duration']` decides the
`state`/`duration` fields by truthiness, the three loops fill the maps, and
the scalar local/peer fields are copied last. -/
def as_dict (answer : Answer) : Formated :=
  let up := answer.duration
  let f0 : Formated :=
    { state := if pyTruthy up then "up" else "down"
      duration := if pyTruthy up then answer.duration else answer.down
      fsm := answer.state
      localCapabilities := []
      localFamilies := []
      localAddPath := []
      peerCapabilities := []
      peerFamilies := []
      peerAddPath := []
      messagesSent := []
      messagesReceived := []
      capabilities := []
      families := []
      addPath := []
      localAddress := answer.localAddress
      localAs := answer.localAs
      localId := answer.localId
      localHold := answer.localHold
      peerAddress := answer.peerAddress
      peerAs := answer.peerAs
      peerId := answer.peerId
      peerHold := answer.peerHold }
  msgFold (capFold (famFold f0 answer.families) answer.capabilities) answer.messages

/-- `Neighbor.summary_header`. -/
def summary_header : String :=
  "Peer            AS        up/down state       |     #sent     #recvd"

/-- `Neighbor.summary(answer)`: the template
`'%-15s %-7s %9s %-12s %10d %10d'` applied to the peer address,
`_pr(peer-as)`, the up-duration (or the literal `down` when `duration` is
falsy), the lowercased state, and the update sent/received counters. -/
def summary (answer : Answer) : String :=
  let upd := (answer.messages.lookup "update").getD (0, 0)
  ljust answer.peerAddress 15 ++ " " ++
  ljust (_pr answer.peerAs) 7 ++ " " ++
  rjust (if pyTruthy answer.duration then timedeltaStr (answer.duration.getD 0) else "down") 9 ++ " " ++
  ljust (pyLower answer.state) 12 ++ " " ++
  rjust (toString upd.1) 10 ++ " " ++
  rjust (toString upd.2) 10

/-! ### neighbor.py — the `teardown` handler

`extract_neighbors` and `match_neighbor` (from
`exabgp.reactor.api.command.limit`, not under `src/`) are taken as
parameters: per the spec a description is a token list that "resolves via an
external matcher to zero or more established peers", and resolution may
raise a domain error (`ValueError`/`IndexError`), both caught by the
handler. -/

/-- The answer marker a handler writes to its service. -/
inductive Marker where
  | done
  | error
  deriving DecidableEq, Repr

/-- The two exception classes the `teardown` handler catches. -/
inductive DomainErr where
  | valueError
  | indexError
  deriving DecidableEq, Repr

/-- A neighbor description: the token list `' '.join(description)` is
logged from. -/
abbrev Description := List String

/-- The reactor facilities the `teardown` handler consults: the established
peer keys, in iteration order, and the external matcher. -/
structure TearReactor where
  established : List String
  matchNeighbor : Description → String → Bool

/-- Everything the `teardown` handler emits: the `teardown_peer(key, code)`
calls it schedules, the log lines, the answer marker written to the
service, and its return value. -/
structure TearOut where
  calls : List (String × Nat)
  logs : List String
  answer : Marker
  ret : Bool
  deriving Repr

/-- The (established peer, description) pairs accepted by `match_neighbor`,
in the doubly nested loop's iteration order (peers outer, descriptions
inner). -/
def matchedPairs (r : TearReactor) (descs : List Description) :
    List (String × Description) :=
  r.established.flatMap fun key =>
    descs.filterMap fun d => if r.matchNeighbor d key then some (key, d) else none

/-- The `teardown` handler (source lines 174–197): extract the neighbor
descriptions, require a space-separated all-digit code, schedule one
teardown and log one line per matching (peer, description) pair, write
`answer-done`; any parse failure or propagated `ValueError`/`IndexError`
writes `answer-error` with nothing scheduled. -/
def teardown (extract : String → Except DomainErr (List Description × String))
    (r : TearReactor) (line : String) : TearOut :=
  match extract line with
  | .error _ => ⟨[], [], .error, false⟩
  | .ok (descriptions, rest) =>
    if !(pyInChar ' ' rest) then ⟨[], [], .error, false⟩
    else
      let code := (pySplit1 rest).2
      if !(pyIsdigit code) then ⟨[], [], .error, false⟩
      else
        let matched := matchedPairs r descriptions
        ⟨matched.map fun m => (m.1, pyInt code),
         matched.map fun m => "teardown scheduled for " ++ String.intercalate " " m.2,
         .done, true⟩

/-! ### neighbor.py — `show neighbor` dispatch and callbacks -/

/-- The reactor facilities the `show neighbor` callbacks consult. -/
structure ShowReactor where
  peers : List String
  neighborName : String → String
  neighborIp : String → String

/-- The peers `callback_summary` renders a row for: the loop skips a peer
when `limit and limit != reactor.neighbor_ip(peer_name)`. -/
def summarySelected (r : ShowReactor) (limit : String) : List String :=
  r.peers.filter fun p => !(limit != "" && limit != r.neighborIp p)

/-- The peers `callback_extensive` renders a block for: the loop skips a
peer when `limit and limit not in reactor.neighbor_name(peer_name)`. -/
def extensiveSelected (r : ShowReactor) (limit : String) : List String :=
  r.peers.filter fun p => !(limit != "" && !(pyIn limit (r.neighborName p)))

/-- The peers `callback_json` serializes: every peer, the filter is never
consulted. -/
def jsonSelected (r : ShowReactor) : List String :=
  r.peers

/-- The four output modes of `show neighbor`. -/
inductive Mode where
  | json
  | summary
  | extensive
  | configuration
  deriving DecidableEq, Repr

/-- The modifier token for each output mode. -/
def modeToken : Mode → String
  | .json => "json"
  | .summary => "summary"
  | .extensive => "extensive"
  | .configuration => "configuration"

/-- The dispatch precedence of `show_neighbor`'s if-chain (higher wins). -/
def precedence : Mode → Nat
  | .json => 3
  | .summary => 2
  | .extensive => 1
  | .configuration => 0

/-- The output-mode modifier tokens accepted by `show neighbor`. -/
def modeTokens : List String :=
  ["summary", "extensive", "configuration", "json"]

/-- The `limit = words[-1] if words[-1] != 'neighbor' else ''` step; the
registered verb guarantees the word list is never empty. -/
def limitOf (words : List String) : String :=
  match words.getLast? with
  | some w => if w == "neighbor" then "" else w
  | none => ""

/-- The argument handling of `show_neighbor` (source lines 200–278): test
each mode token for membership, `list.remove` each present one (first
occurrence only), derive the filter from the last remaining word, and pick
the callback by the fixed `json`, `summary`, `extensive`, `configuration`
if-chain — `none` means no mode was present and the usage hint is written
instead. -/
def showDispatch (words : List String) : Option Mode × String :=
  let extensive := words.contains "extensive"
  let configuration := words.contains "configuration"
  let summary := words.contains "summary"
  let jason := words.contains "json"
  let w1 := if summary then words.erase "summary" else words
  let w2 := if extensive then w1.erase "extensive" else w1
  let w3 := if configuration then w2.erase "configuration" else w2
  let w4 := if jason then w3.erase "json" else w3
  let limit := limitOf w4
  let mode : Option Mode :=
    if jason then some .json
    else if summary then some .summary
    else if extensive then some .extensive
    else if configuration then some .configuration
    else none
  (mode, limit)

/-! ### Claims C1 and C2 -/

theorem filterMap_match_eq (mn : Description → String → Bool) (k : String) (n : Nat)
    (descs : List Description) :
    ((descs.filterMap fun d => if mn d k then some (k, d) else none).map
        fun m => (m.1, n))
      = (descs.filter fun d => mn d k).map fun _ => (k, n) := by
  induction descs with
  | nil => rfl
  | cons d rest ih =>
    by_cases h : mn d k
    · simpa [h] using ih
    · simpa [h] using ih

theorem map_matchedPairs (r : TearReactor) (descs : List Description) (n : Nat) :
    ((matchedPairs r descs).map fun m => (m.1, n))
      = r.established.flatMap fun k =>
          (descs.filter fun d => r.matchNeighbor d k).map fun _ => (k, n) := by
  unfold matchedPairs
  rw [List.map_flatMap]
  exact List.flatMap_congr fun k _ => filterMap_match_eq r.matchNeighbor k n descs

/-- C1: when the arguments parse — the extractor resolves the descriptions
and leaves a line with a space-separated all-decimal-digit code segment —
the handler schedules `teardown_peer` with the integer code once for every
(established peer, description) pair accepted by the matcher, logs exactly
one line per such call, writes `answer-done` and returns `True`; this holds
even when no pair matches. -/
theorem teardown_success
    (extract : String → Except DomainErr (List Description × String))
    (r : TearReactor) (line : String) (descs : List Description) (rest : String)
    (hex : extract line = .ok (descs, rest))
    (hsp : pyInChar ' ' rest = true)
    (hdg : pyIsdigit (pySplit1 rest).2 = true) :
    (teardown extract r line).calls =
      (r.established.flatMap fun k =>
        (descs.filter fun d => r.matchNeighbor d k).map
          fun _ => (k, pyInt (pySplit1 rest).2))
    ∧ (teardown extract r line).logs.length = (teardown extract r line).calls.length
    ∧ (teardown extract r line).answer = .done
    ∧ (teardown extract r line).ret = true := by
  unfold teardown
  rw [hex]
  simp only [hsp, hdg, Bool.not_true, Bool.false_eq_true, if_false]
  refine ⟨map_matchedPairs r descs _, ?_, ?_, ?_⟩ <;> simp

/-- Concrete extractor for the witness: the command
`teardown 10.0.0.1 6` resolves to the single description `10.0.0.1` and
the remaining line `teardown 6`. -/
def tearExtract0 : String → Except DomainErr (List Description × String) :=
  fun _ => .ok ([["10.0.0.1"]], "teardown 6")

/-- Concrete reactor for the witness: one established peer matched by the
description that names it. -/
def tearReactor0 : TearReactor :=
  ⟨["10.0.0.1"], fun d k => d == [k]⟩

/-- Witness for `teardown_success`: with exactly one established peer
matching `10.0.0.1` and code segment `6`, exactly one teardown with code 6
is scheduled, one line logged, and the command ends with `answer-done`. -/
theorem teardown_success_witness :
    tearExtract0 "teardown 10.0.0.1 6" = .ok ([["10.0.0.1"]], "teardown 6")
    ∧ pyInChar ' ' "teardown 6" = true
    ∧ pyIsdigit (pySplit1 "teardown 6").2 = true
    ∧ ((teardown tearExtract0 tearReactor0 "teardown 10.0.0.1 6").calls =
        [("10.0.0.1", 6)]
      ∧ (teardown tearExtract0 tearReactor0 "teardown 10.0.0.1 6").logs.length =
        (teardown tearExtract0 tearReactor0 "teardown 10.0.0.1 6").calls.length
      ∧ (teardown tearExtract0 tearReactor0 "teardown 10.0.0.1 6").answer = .done
      ∧ (teardown tearExtract0 tearReactor0 "teardown 10.0.0.1 6").ret = true) :=
  ⟨rfl, by decide, by decide,
   teardown_success tearExtract0 tearReactor0 "teardown 10.0.0.1 6"
     [["10.0.0.1"]] "teardown 6" rfl (by decide) (by decide)⟩

/-- C2: the handler writes `answer-error` — scheduling no teardown and
returning `False` — exactly when the extractor raises a domain error
(`ValueError`/`IndexError`), the remaining line has no space-separated code
segment, or the code segment is not all decimal digits; being a total
function of its inputs, the embedded handler propagates no exception in any
of these cases. -/
theorem teardown_error_iff
    (extract : String → Except DomainErr (List Description × String))
    (r : TearReactor) (line : String) :
    ((teardown extract r line).answer = .error
      ∧ (teardown extract r line).calls = []
      ∧ (teardown extract r line).ret = false)
    ↔ ((∃ e, extract line = .error e)
      ∨ (∃ descs rest, extract line = .ok (descs, rest)
          ∧ (pyInChar ' ' rest = false ∨ pyIsdigit (pySplit1 rest).2 = false))) := by
  unfold teardown
  cases hex : extract line with
  | error e => simp [hex]
  | ok p =>
    obtain ⟨descs, rest⟩ := p
    by_cases hsp : pyInChar ' ' rest = true
    · by_cases hdg : pyIsdigit (pySplit1 rest).2 = true
      · simp [hex, hsp, hdg]
      · have hdg2 : pyIsdigit (pySplit1 rest).2 = false := by simpa using hdg
        simp [hex, hsp, hdg2]
        exact ⟨descs, rest, ⟨rfl, rfl⟩, Or.inr hdg2⟩
    · have hsp2 : pyInChar ' ' rest = false := by simpa using hsp
      simp [hex, hsp2]
      exact ⟨descs, rest, ⟨rfl, rfl⟩, Or.inl hsp2⟩

/-! ### Claims C8, C5, C9 and C10 -/

/-- The `'%s %s' % (a, s)` key a family entry is filed under. -/
def famKey (e : FamEntry) : String :=
  e.1.1 ++ " " ++ e.1.2

theorem famFold_spec (l : List FamEntry) (acc : Formated) :
    famFold acc l =
      { acc with
        localFamilies := acc.localFamilies ++ l.map fun e => (famKey e, e.2.1)
        peerFamilies := acc.peerFamilies ++ l.map fun e => (famKey e, e.2.2.1)
        localAddPath := acc.localAddPath ++ l.map fun e => (famKey e, e.2.2.2.1)
        peerAddPath := acc.peerAddPath ++ l.map fun e => (famKey e, e.2.2.2.2)
        families := acc.families ++ (l.filter fun e => e.2.1 && e.2.2.1).map famKey
        addPath := acc.addPath ++ l.map fun e => (famKey e, _addpath e.2.2.2.1 e.2.2.2.2) } := by
  induction l generalizing acc with
  | nil => simp [famFold]
  | cons e rest ih =>
    obtain ⟨⟨a, s⟩, ⟨l1, p, aps, apr⟩⟩ := e
    rw [famFold, ih]
    by_cases hlp : (l1 && p) = true
    · simp [hlp, famKey, List.filter_cons]
    · simp [hlp, famKey, List.filter_cons]

theorem capFold_spec (l : List (String × (Bool × Bool))) (acc : Formated) :
    capFold acc l =
      { acc with
        localCapabilities := acc.localCapabilities ++ l.map fun e => (e.1, e.2.1)
        peerCapabilities := acc.peerCapabilities ++ l.map fun e => (e.1, e.2.2)
        capabilities := acc.capabilities ++ (l.filter fun e => e.2.1 && e.2.2).map fun e => e.1 } := by
  induction l generalizing acc with
  | nil => simp [capFold]
  | cons e rest ih =>
    obtain ⟨k, ⟨l1, p⟩⟩ := e
    rw [capFold, ih]
    by_cases hlp : (l1 && p) = true
    · simp [hlp, List.filter_cons]
    · simp [hlp, List.filter_cons]

theorem msgFold_spec (l : List (String × (Nat × Nat))) (acc : Formated) :
    msgFold acc l =
      { acc with
        messagesSent := acc.messagesSent ++ l.map fun e => (e.1, e.2.1)
        messagesReceived := acc.messagesReceived ++ l.map fun e => (e.1, e.2.2) } := by
  induction l generalizing acc with
  | nil => simp [msgFold]
  | cons e rest ih =>
    obtain ⟨k, ⟨s, r⟩⟩ := e
    rw [msgFold, ih]
    simp

/-- C8: the top-level `families` list of the json object holds exactly the
"AFI SAFI" keys whose tuple has both the local and the peer side enabled,
the top-level `capabilities` list exactly the capability names enabled on
both sides, while the per-side `local`/`peer` maps carry every family and
capability key of the snapshot. -/
theorem as_dict_top_level_lists (answer : Answer) :
    (as_dict answer).families =
      (answer.families.filter fun e => e.2.1 && e.2.2.1).map famKey
    ∧ (as_dict answer).capabilities =
      ((answer.capabilities.filter fun e => e.2.1 && e.2.2).map fun e => e.1)
    ∧ ((as_dict answer).localFamilies.map fun e => e.1) = answer.families.map famKey
    ∧ ((as_dict answer).peerFamilies.map fun e => e.1) = answer.families.map famKey
    ∧ ((as_dict answer).localCapabilities.map fun e => e.1) =
      (answer.capabilities.map fun e => e.1)
    ∧ ((as_dict answer).peerCapabilities.map fun e => e.1) =
      (answer.capabilities.map fun e => e.1) := by
  simp only [as_dict, famFold_spec, capFold_spec, msgFold_spec]
  simp

/-- A concrete snapshot with one family whose add-path tuple has `send`
enabled and `receive` disabled on the wire. -/
def answer0 : Answer :=
  { duration := some 10
    down := none
    state := "ESTABLISHED"
    localAddress := "127.0.0.1"
    localAs := 65000
    localId := "1.1.1.1"
    localHold := 180
    peerAddress := "10.0.0.1"
    peerAs := some 65001
    peerId := some "2.2.2.2"
    peerHold := some 180
    capabilities := []
    families := [(("ipv4", "unicast"), (true, true, true, false))]
    messages := [("update", (3, 4))] }

/-- C5: evaluating both rendering paths at the same snapshot refutes the
claimed agreement: for the family tuple `(true, true, true, false)` the
json path (`as_dict`) reports the add-path mode `send` while the extensive
path renders `receive`, because the two destructure the tuple's third and
fourth components in opposite orders. -/
theorem addpath_rendering_disagrees :
    (as_dict answer0).addPath = [("ipv4 unicast", "send")]
    ∧ extensiveFamiliesLines answer0.families =
      [extensive_kv "ipv4 unicast:" "enabled" "enabled" "receive"]
    ∧ ("send" : String) ≠ "receive" :=
  ⟨rfl, rfl, by decide⟩

/-- C9: for any snapshot up for 3661 seconds, the summary row is the
claimed column layout — peer address left-justified in 15 columns, AS in 7,
the up-duration `1:01:01` right-justified in 9, the lowercased FSM state
left-justified in 12, then the update sent and received counters
right-justified in 10 columns each. -/
theorem summary_row_layout (a : Answer) (h : a.duration = some 3661) :
    summary a =
      ljust a.peerAddress 15 ++ " " ++
      ljust (_pr a.peerAs) 7 ++ " " ++
      rjust "1:01:01" 9 ++ " " ++
      ljust (pyLower a.state) 12 ++ " " ++
      rjust (toString ((a.messages.lookup "update").getD (0, 0)).1) 10 ++ " " ++
      rjust (toString ((a.messages.lookup "update").getD (0, 0)).2) 10 := by
  unfold summary
  rw [h]
  rfl

/-- A concrete snapshot up for 3661 seconds. -/
def answer1 : Answer :=
  { answer0 with duration := some 3661, messages := [("update", (12, 34))] }

/-- Witness for `summary_row_layout` at `answer1`. -/
theorem summary_row_layout_witness :
    answer1.duration = some 3661
    ∧ summary answer1 =
      ljust answer1.peerAddress 15 ++ " " ++
      ljust (_pr answer1.peerAs) 7 ++ " " ++
      rjust "1:01:01" 9 ++ " " ++
      ljust (pyLower answer1.state) 12 ++ " " ++
      rjust (toString ((answer1.messages.lookup "update").getD (0, 0)).1) 10 ++ " " ++
      rjust (toString ((answer1.messages.lookup "update").getD (0, 0)).2) 10 :=
  ⟨rfl, summary_row_layout answer1 rfl⟩

/-- C10: up/down classification goes by truthiness, not null-ness — a
snapshot with `duration = 0` and `down` null is reported by `as_dict` with
state `down` and a null json duration, and `summary` renders the literal
`down` in the up/down column. -/
theorem zero_duration_renders_down (a : Answer)
    (h : a.duration = some 0) (h2 : a.down = none) :
    (as_dict a).state = "down"
    ∧ (as_dict a).duration = none
    ∧ summary a =
      ljust a.peerAddress 15 ++ " " ++
      ljust (_pr a.peerAs) 7 ++ " " ++
      rjust "down" 9 ++ " " ++
      ljust (pyLower a.state) 12 ++ " " ++
      rjust (toString ((a.messages.lookup "update").getD (0, 0)).1) 10 ++ " " ++
      rjust (toString ((a.messages.lookup "update").getD (0, 0)).2) 10 := by
  refine ⟨?_, ?_, ?_⟩
  · simp only [as_dict, famFold_spec, capFold_spec, msgFold_spec]
    simp [h, pyTruthy]
  · simp only [as_dict, famFold_spec, capFold_spec, msgFold_spec]
    simp [h, h2, pyTruthy]
  · unfold summary
    rw [h]
    rfl

/-- A concrete snapshot established exactly zero seconds ago. -/
def answer2 : Answer :=
  { answer0 with duration := some 0, down := none }

/-- Witness for `zero_duration_renders_down` at `answer2`. -/
theorem zero_duration_renders_down_witness :
    answer2.duration = some 0
    ∧ answer2.down = none
    ∧ ((as_dict answer2).state = "down"
      ∧ (as_dict answer2).duration = none
      ∧ summary answer2 =
        ljust answer2.peerAddress 15 ++ " " ++
        ljust (_pr answer2.peerAs) 7 ++ " " ++
        rjust "down" 9 ++ " " ++
        ljust (pyLower answer2.state) 12 ++ " " ++
        rjust (toString ((answer2.messages.lookup "update").getD (0, 0)).1) 10 ++ " " ++
        rjust (toString ((answer2.messages.lookup "update").getD (0, 0)).2) 10) :=
  ⟨rfl, rfl, zero_duration_renders_down answer2 rfl rfl⟩

/-! ### Claim C6 -/

/-- C6: with a non-empty filter token, `callback_summary` renders a row
exactly for the connected peers whose IP equals the filter,
`callback_extensive` a block exactly for those whose name contains the
filter as a substring, and `callback_json` ignores the filter and takes
every connected peer. -/
theorem show_filters (r : ShowReactor) (limit p : String) (h : limit ≠ "") :
    (p ∈ summarySelected r limit ↔ p ∈ r.peers ∧ r.neighborIp p = limit)
    ∧ (p ∈ extensiveSelected r limit ↔ p ∈ r.peers ∧ pyIn limit (r.neighborName p) = true)
    ∧ jsonSelected r = r.peers := by
  have h1 : (limit != "") = true := by simpa using h
  refine ⟨?_, ?_, rfl⟩
  · simp only [summarySelected, List.mem_filter]
    refine and_congr Iff.rfl ?_
    rw [h1]
    simp
    exact eq_comm
  · simp only [extensiveSelected, List.mem_filter]
    refine and_congr Iff.rfl ?_
    rw [h1]
    simp

/-- A concrete reactor with two connected peers for the filter witness. -/
def showReactor1 : ShowReactor :=
  ⟨["peerA", "peerB"], fun p => p ++ "-10.0.0.1", fun _ => "10.0.0.1"⟩

/-- Witness for `show_filters` at `showReactor1` with filter `10.0.0.1`. -/
theorem show_filters_witness :
    ("10.0.0.1" : String) ≠ ""
    ∧ (("peerA" ∈ summarySelected showReactor1 "10.0.0.1" ↔
        "peerA" ∈ showReactor1.peers ∧ showReactor1.neighborIp "peerA" = "10.0.0.1")
      ∧ ("peerA" ∈ extensiveSelected showReactor1 "10.0.0.1" ↔
        "peerA" ∈ showReactor1.peers
          ∧ pyIn "10.0.0.1" (showReactor1.neighborName "peerA") = true)
      ∧ jsonSelected showReactor1 = showReactor1.peers) :=
  ⟨by decide, show_filters showReactor1 "10.0.0.1" "peerA" (by decide)⟩

/-! ### Claim C7 -/

theorem erase_eq_filter_of_count_le_one (l : List String) (t : String)
    (h : l.count t ≤ 1) : l.erase t = l.filter (fun x => !(x == t)) := by
  induction l with
  | nil => rfl
  | cons a as ih =>
    by_cases ha : a = t
    · subst ha
      rw [List.erase_cons_head]
      rw [List.count_cons_self] at h
      have h0 : as.count a = 0 := by omega
      rw [List.filter_cons_of_neg (by simp)]
      have hmem : a ∉ as := List.count_eq_zero.mp h0
      exact (List.filter_eq_self.mpr (fun x hx => by
        simp only [Bool.not_eq_true']
        exact beq_eq_false_iff_ne.mpr (fun he => hmem (he ▸ hx)))).symm
    · rw [List.erase_cons_tail (by simpa using ha)]
      rw [List.count_cons_of_ne (fun he => ha he.symm)] at h
      rw [List.filter_cons_of_pos (by simpa using ha)]
      rw [ih h]

theorem guard_erase (l : List String) (t : String) :
    (if l.contains t then l.erase t else l) = l.erase t := by
  by_cases h : l.contains t = true
  · rw [if_pos h]
  · rw [if_neg h]
    exact (List.erase_of_not_mem (by simpa using h)).symm

theorem eraseChain_eq_filter (l : List String)
    (h : ∀ t ∈ modeTokens, l.count t ≤ 1) :
    ((((l.erase "summary").erase "extensive").erase "configuration").erase "json")
      = l.filter (fun w => !(modeTokens.contains w)) := by
  have c1 : l.count "summary" ≤ 1 := h _ (by decide)
  have c2 : (l.erase "summary").count "extensive" ≤ 1 := by
    rw [List.count_erase_of_ne (by decide)]
    exact h _ (by decide)
  have c3 : ((l.erase "summary").erase "extensive").count "configuration" ≤ 1 := by
    rw [List.count_erase_of_ne (by decide), List.count_erase_of_ne (by decide)]
    exact h _ (by decide)
  have c4 : (((l.erase "summary").erase "extensive").erase "configuration").count "json" ≤ 1 := by
    rw [List.count_erase_of_ne (by decide), List.count_erase_of_ne (by decide),
      List.count_erase_of_ne (by decide)]
    exact h _ (by decide)
  rw [erase_eq_filter_of_count_le_one _ _ c1] at c2 c3 c4 ⊢
  rw [erase_eq_filter_of_count_le_one _ _ c2] at c3 c4 ⊢
  rw [erase_eq_filter_of_count_le_one _ _ c3] at c4 ⊢
  rw [erase_eq_filter_of_count_le_one _ _ c4]
  simp only [List.filter_filter]
  apply List.filter_congr
  intro x _
  simp [modeTokens]
  cases h1 : (x == "summary") <;> cases h2 : (x == "extensive") <;>
    cases h3 : (x == "configuration") <;> cases h4 : (x == "json") <;>
    simp_all

theorem contains_erase_ne (l : List String) (t u : String) (h : t ≠ u) :
    (l.erase u).contains t = l.contains t := by
  cases hc : l.contains t with
  | true =>
    have h1 : t ∈ l := by simpa using hc
    have h2 : t ∈ l.erase u := (List.mem_erase_of_ne h).mpr h1
    simpa using h2
  | false =>
    have h1 : t ∉ l := by simpa using hc
    have h2 : t ∉ l.erase u := fun hm => h1 (List.mem_of_mem_erase hm)
    simpa using h2

theorem guard_erase2 (l l2 : List String) (t : String)
    (h : l2.contains t = l.contains t) :
    (if l.contains t then l2.erase t else l2) = l2.erase t := by
  by_cases hc : l.contains t = true
  · rw [if_pos hc]
  · rw [if_neg hc]
    refine (List.erase_of_not_mem ?_).symm
    have h2 : l2.contains t = false := by rw [h]; simpa using hc
    simpa using h2

/-- C7 counterexample: `show neighbor summary summary` contains more than
one output-mode token, yet the extra occurrence is not ignored:
`list.remove` deletes only the first one, the survivor becomes the filter
`summary`, and the scheduled summary callback then suppresses every peer
(no peer IP equals `summary`) although with no filter both peers render. -/
theorem duplicate_mode_token_becomes_filter :
    showDispatch ["show", "neighbor", "summary", "summary"] = (some Mode.summary, "summary")
    ∧ summarySelected showReactor1 "summary" = []
    ∧ summarySelected showReactor1 "" = ["peerA", "peerB"] :=
  ⟨by decide, rfl, rfl⟩

/-- C7 (amended): for a `show neighbor` command in which each output-mode
token appears at most once and at least two distinct mode tokens are
present, exactly one handler is scheduled, chosen by the fixed precedence
`json > summary > extensive > configuration`, and the remaining mode tokens
are ignored: the filter equals the one computed from the word list with all
mode tokens removed. -/
theorem show_precedence (words : List String)
    (h1 : ∀ t ∈ modeTokens, words.count t ≤ 1)
    (h2 : 2 ≤ (modeTokens.filter (fun t => words.contains t)).length) :
    ∃ m, (showDispatch words).1 = some m
      ∧ words.contains (modeToken m) = true
      ∧ (∀ m2, words.contains (modeToken m2) = true → precedence m2 ≤ precedence m)
      ∧ (showDispatch words).2 =
          limitOf (words.filter (fun w => !(modeTokens.contains w))) := by
  have e1 : (if words.contains "summary" then words.erase "summary" else words)
      = words.erase "summary" := guard_erase words "summary"
  have e2 : (if words.contains "extensive"
        then (words.erase "summary").erase "extensive" else words.erase "summary")
      = (words.erase "summary").erase "extensive" :=
    guard_erase2 words _ "extensive" (contains_erase_ne _ _ _ (by decide))
  have e3 : (if words.contains "configuration"
        then ((words.erase "summary").erase "extensive").erase "configuration"
        else (words.erase "summary").erase "extensive")
      = ((words.erase "summary").erase "extensive").erase "configuration" :=
    guard_erase2 words _ "configuration" (by
      rw [contains_erase_ne _ _ _ (by decide), contains_erase_ne _ _ _ (by decide)])
  have e4 : (if words.contains "json"
        then (((words.erase "summary").erase "extensive").erase "configuration").erase "json"
        else ((words.erase "summary").erase "extensive").erase "configuration")
      = (((words.erase "summary").erase "extensive").erase "configuration").erase "json" :=
    guard_erase2 words _ "json" (by
      rw [contains_erase_ne _ _ _ (by decide), contains_erase_ne _ _ _ (by decide),
        contains_erase_ne _ _ _ (by decide)])
  have hlimit : (showDispatch words).2 =
      limitOf (words.filter (fun w => !(modeTokens.contains w))) := by
    simp only [showDispatch, e1, e2, e3, e4]
    rw [eraseChain_eq_filter words h1]
  by_cases hj : "json" ∈ words
  · refine ⟨.json, ?_, by simpa using hj, ?_, hlimit⟩
    · simp [showDispatch, hj]
    · intro m2 _
      cases m2 <;> decide
  · by_cases hs : "summary" ∈ words
    · refine ⟨.summary, ?_, by simpa using hs, ?_, hlimit⟩
      · simp [showDispatch, hj, hs]
      · intro m2 hm2
        have hm : modeToken m2 ∈ words := by simpa using hm2
        cases m2 with
        | json => exact absurd hm hj
        | summary => decide
        | extensive => decide
        | configuration => decide
    · by_cases he : "extensive" ∈ words
      · refine ⟨.extensive, ?_, by simpa using he, ?_, hlimit⟩
        · simp [showDispatch, hj, hs, he]
        · intro m2 hm2
          have hm : modeToken m2 ∈ words := by simpa using hm2
          cases m2 with
          | json => exact absurd hm hj
          | summary => exact absurd hm hs
          | extensive => decide
          | configuration => decide
      · by_cases hc : "configuration" ∈ words
        · refine ⟨.configuration, ?_, by simpa using hc, ?_, hlimit⟩
          · simp [showDispatch, hj, hs, he, hc]
          · intro m2 hm2
            have hm : modeToken m2 ∈ words := by simpa using hm2
            cases m2 with
            | json => exact absurd hm hj
            | summary => exact absurd hm hs
            | extensive => exact absurd hm he
            | configuration => decide
        · exfalso
          simp [modeTokens, hj, hs, he, hc] at h2

/-- Witness for `show_precedence` at `show neighbor summary json`: json
wins, summary is ignored, and the computed filter is empty. -/
theorem show_precedence_witness :
    ∃ m, (showDispatch ["show", "neighbor", "summary", "json"]).1 = some m
      ∧ (["show", "neighbor", "summary", "json"] : List String).contains (modeToken m) = true
      ∧ (∀ m2, (["show", "neighbor", "summary", "json"] : List String).contains
            (modeToken m2) = true → precedence m2 ≤ precedence m)
      ∧ (showDispatch ["show", "neighbor", "summary", "json"]).2 =
          limitOf ((["show", "neighbor", "summary", "json"] : List String).filter
            (fun w => !(modeTokens.contains w))) :=
  show_precedence ["show", "neighbor", "summary", "json"] (by decide) (by decide)

end Exabgp
